/-
Verification of the incremental graph-construction pipeline of the
graphdb repository against its specification.

The Python sources are shallowly embedded: strings are lists of
characters (`Str`), Python dicts (which preserve insertion order and
update values in place) are association lists with ordered insert,
fallible constructors return `Except`, and the ambient clock that
`datetime.now()` reads is an explicit `World` parameter.  Each
definition mirrors one Python function or method and is named after it.
-/
import Mathlib

set_option autoImplicit false

deriving instance DecidableEq for Except

namespace GraphDB

/-- Strings as lists of characters; Python `str` values. -/
abbrev Str : Type := List Char

/-- The whitespace characters stripped by Python `str.strip()` (the
ASCII ones; the sources only ever strip ASCII data). -/
def pyIsSpace (c : Char) : Bool :=
  c == ' ' || c == '\t' || c == '\n' || c == '\r' || c == '\x0b' || c == '\x0c'

/-- Python `str.strip()`. -/
def pyStrip (s : Str) : Str :=
  ((s.dropWhile pyIsSpace).reverse.dropWhile pyIsSpace).reverse

/-- Python `str.lower()` (ASCII data). -/
def toLowerL (s : Str) : Str := s.map Char.toLower

/-- The first string starts the second (helper for substring search). -/
def isPre : Str → Str → Bool
  | [], _ => true
  | _ :: _, [] => false
  | a :: as, b :: bs => a == b && isPre as bs

/-- Python `p in t` on strings: `p` occurs contiguously in `t`. -/
def containsSub (p : Str) : Str → Bool
  | [] => isPre p []
  | c :: t => isPre p (c :: t) || containsSub p t

/-- Python `s.count(c)` for a single character. -/
def countChar (c : Char) (s : Str) : Nat := (s.filter (fun d => d == c)).length

/-- Python `x in xs` for a list of strings. -/
def memS (x : Str) (l : List Str) : Bool := l.any (fun y => y == x)

/-- Python `sep.join(xs)`. -/
def pyJoin (sep : Str) : List Str → Str
  | [] => []
  | [x] => x
  | x :: y :: rest => x ++ sep ++ pyJoin sep (y :: rest)

/-- The scan of Python `t.replace(pat, rep)`, with explicit fuel so the
recursion is structural (kernel-reducible).  The fuel only needs to
dominate the text's length: a match consumes `pat.length ≥ 1`
characters and one unit of fuel, a non-match one character and one
unit, so the `0` clause is never reached from `replaceAllSub`. -/
def replaceGo (pat rep : Str) : Nat → Str → Str
  | _, [] => []
  | 0, s => s
  | fuel + 1, c :: t =>
    if pat ≠ [] ∧ isPre pat (c :: t) = true then
      rep ++ replaceGo pat rep fuel ((c :: t).drop pat.length)
    else
      c :: replaceGo pat rep fuel t

/-- Python `t.replace(pat, rep)`: replace every non-overlapping
occurrence of `pat`, scanning left to right (the sources never call it
with an empty pattern, and an empty pattern is treated as no match). -/
def replaceAllSub (pat rep : Str) (t : Str) : Str := replaceGo pat rep t.length t

/-- Python truthiness of an optional string: `None` and `""` are falsy. -/
def pyTruthyStr : Option Str → Option Str
  | some s => if s.isEmpty then none else some s
  | none => none

/-! ## src/utils/validation.py and the hierarchy model -/

/-- `OrganizationHierarchy` (src/models/organization.py): a PART_OF
candidate edge.  The `relationshipType` and `level` fields always carry
their defaults in the validated flows and are omitted. -/
structure OrganizationHierarchy where
  childId : Str
  parentId : Str
deriving DecidableEq, Repr

/-- The step-1 message of `validate_hierarchy`:
`f"CRITICAL: Self-reference detected - {rel.childId} is parent of itself"`,
written with its two literal pieces and the separating spaces explicit. -/
def selfRefMsg (child : Str) : Str :=
  "CRITICAL: Self-reference detected -".toList
    ++ ' ' :: (child ++ ' ' :: "is parent of itself".toList)

/-- The step-3 message of `validate_hierarchy`:
`f"Cycle detected: {' -> '.join(cycle_path)}"` (the join is inlined in
the source as `cycle_str`), with the space after the colon explicit. -/
def cycleMsg (path : List Str) : Str :=
  "Cycle detected:".toList ++ ' ' :: pyJoin " -> ".toList path

/-- One item of the step-4 warning: `f"{child_id} has {parent_count} parents"`. -/
def multiParentItem (child : Str) (n : Nat) : Str :=
  child ++ " has ".toList ++ (toString n).toList ++ " parents".toList

/-- The step-4 message of `validate_hierarchy`:
`f"WARNING: Organizations with multiple parents: {'; '.join(items)}"`. -/
def multiParentMsg (items : List Str) : Str :=
  "WARNING: Organizations with multiple parents: ".toList
    ++ pyJoin "; ".toList items

/-- A Python `dict[str, str]`: insertion order is kept, an existing key
is updated in place. -/
abbrev StrDict := List (Str × Str)

/-- `d[k] = v` on a Python dict. -/
def dictInsert (k v : Str) (m : StrDict) : StrDict :=
  if m.any (fun kv => kv.1 == k) then
    m.map (fun kv => if kv.1 == k then (kv.1, v) else kv)
  else m ++ [(k, v)]

/-- `d.get(k)` / `d[k]` on a Python dict (keys are unique, so the first
match is the match). -/
def dictFind (k : Str) (m : StrDict) : Option Str :=
  (m.find? (fun kv => kv.1 == k)).map (fun kv => kv.2)

/-- Iteration order of a Python dict: its keys in insertion order. -/
def dictKeys (m : StrDict) : List Str := m.map (fun kv => kv.1)

/-- A Python `dict[str, int]` used as a counter. -/
abbrev CountDict := List (Str × Nat)

/-- `d[k] = d.get(k, 0) + 1` on a Python counter dict. -/
def countBump (k : Str) (m : CountDict) : CountDict :=
  if m.any (fun kv => kv.1 == k) then
    m.map (fun kv => if kv.1 == k then (kv.1, kv.2 + 1) else kv)
  else m ++ [(k, 1)]

/-- Step 1 of `validate_hierarchy`: one CRITICAL message per relationship
with `childId == parentId`, in list order. -/
def selfRefErrors : List OrganizationHierarchy → List Str
  | [] => []
  | r :: rs =>
    if r.childId == r.parentId then selfRefMsg r.childId :: selfRefErrors rs
    else selfRefErrors rs

/-- Step 2 of `validate_hierarchy`: the `parent_map` dict, skipping
self-references.  (The `child_counts` dict built alongside it is never
read afterwards and is not modelled.) -/
def buildParentMap (rels : List OrganizationHierarchy) : StrDict :=
  rels.foldl
    (fun m r => if r.childId == r.parentId then m else dictInsert r.childId r.parentId m)
    []

/-- The `while current in parent_map` walk of step 3: follow the parent
chain keeping the visited set and the path; on revisiting a node on the
path, return `path[path.index(current):] + [current]`.  Fuel bounds the
loop; `parent_map` size + 1 is always enough because each non-final
iteration adds a fresh key to `visited`. -/
def walkParents (pm : StrDict) : Nat → List Str → List Str → Str → Option (List Str)
  | 0, _, _, _ => none
  | fuel + 1, visited, path, current =>
    match dictFind current pm with
    | none => none
    | some parent =>
      if memS current visited then
        some (path.drop (path.findIdx (fun x => x == current)) ++ [current])
      else
        walkParents pm fuel (current :: visited) (path ++ [current]) parent

/-- The `for child_id in parent_map` loop of step 3, carrying the
`cycles_detected` set (modelled as a list; `set.update` appends the
cycle path, membership is unaffected by duplicates). -/
def cycleErrorsGo (pm : StrDict) : List Str → List Str → List Str
  | [], _ => []
  | k :: ks, det =>
    if memS k det then cycleErrorsGo pm ks det
    else
      match walkParents pm (pm.length + 1) [] [] k with
      | none => cycleErrorsGo pm ks det
      | some cp => cycleMsg cp :: cycleErrorsGo pm ks (det ++ cp)

/-- Step 3 of `validate_hierarchy`: the cycle messages, in detection order. -/
def cycleErrors (pm : StrDict) : List Str := cycleErrorsGo pm (dictKeys pm) []

/-- Step 4 of `validate_hierarchy`: the `child_parent_count` dict over
non-self-reference relationships. -/
def childParentCount (rels : List OrganizationHierarchy) : CountDict :=
  rels.foldl
    (fun m r => if r.childId == r.parentId then m else countBump r.childId m)
    []

/-- Step 4 of `validate_hierarchy`: the `children_with_multiple_parents`
items, in dict insertion order. -/
def multiParentItems (m : CountDict) : List Str :=
  (m.filter (fun kv => decide (1 < kv.2))).map (fun kv => multiParentItem kv.1 kv.2)

/-- Step 4 of `validate_hierarchy`: at most one WARNING message, present
iff some child has more than one parent. -/
def warningErrors (rels : List OrganizationHierarchy) : List Str :=
  if (multiParentItems (childParentCount rels)).isEmpty then []
  else [multiParentMsg (multiParentItems (childParentCount rels))]

/-- The `errors` list of `validate_hierarchy`: step-1 messages, then
step-3 messages, then the step-4 message, exactly in append order.
(Step 5 only logs the root count and adds no error.) -/
def hierarchyErrors (rels : List OrganizationHierarchy) : List Str :=
  selfRefErrors rels ++ cycleErrors (buildParentMap rels) ++ warningErrors rels

/-- `validate_hierarchy` (src/utils/validation.py): returns
`(is_valid, errors)` with
`is_valid = len(errors) == 0 or all("WARNING:" in e for e in errors)`. -/
def validate_hierarchy (rels : List OrganizationHierarchy) : Bool × List Str :=
  let errors := hierarchyErrors rels
  (errors.isEmpty || errors.all (fun e => containsSub "WARNING:".toList e), errors)

/-- One raw organization dict as consumed by
`extract_hierarchy_relationships`: its `id` and `parent_id` entries
(`dict.get`, so either may be absent). -/
structure OrgRecord where
  idField : Option Str
  parentIdField : Option Str
deriving DecidableEq, Repr

/-- The relationship-collection loop of `extract_hierarchy_relationships`:
keep `(org_id, parent_id)` when both are truthy and differ.  The
`OrganizationHierarchy` constructor cannot fail on such a pair (its only
validator rejects `childId == parentId`, which is excluded here). -/
def candidateRels : List OrgRecord → List OrganizationHierarchy
  | [] => []
  | o :: os =>
    match pyTruthyStr o.idField, pyTruthyStr o.parentIdField with
    | some cid, some pid =>
      if cid == pid then candidateRels os else ⟨cid, pid⟩ :: candidateRels os
    | _, _ => candidateRels os

/-- `extract_hierarchy_relationships` (src/utils/validation.py): collect
the candidate edges, validate the hierarchy, and if it is invalid with a
CRITICAL error, drop the self-reference edges (nothing else). -/
def extract_hierarchy_relationships (orgs : List OrgRecord) : List OrganizationHierarchy :=
  let relationships := candidateRels orgs
  let v := validate_hierarchy relationships
  if !v.1 && v.2.any (fun e => containsSub "CRITICAL:".toList e) then
    relationships.filter (fun r => !(r.childId == r.parentId))
  else relationships

/-- Reachability along the PART_OF edges (child to parent direction) in
one or more steps, with fuel; used to state what a "path from A back to
A" is in the cleaned edge set. -/
def hasPathAux (edges : List OrganizationHierarchy) : Nat → Str → Str → Bool
  | 0, _, _ => false
  | fuel + 1, a, b =>
    edges.any (fun e => e.childId == a && (e.parentId == b || hasPathAux edges fuel e.parentId b))

/-- A path of length ≥ 1 from `a` to `b` along the edge set. -/
def hasPath (edges : List OrganizationHierarchy) (a b : Str) : Bool :=
  hasPathAux edges (edges.length + 1) a b

/-! ## src/models/person.py: ORCID normalization -/

/-- `f"{v[:4]}-{v[4:8]}-{v[8:12]}-{v[12:16]}"` for a 16-character input. -/
def insertOrcidDashes (s : Str) : Str :=
  s.take 4 ++ '-' :: ((s.drop 4).take 4 ++ '-' :: ((s.drop 8).take 4 ++ '-' :: (s.drop 12).take 4))

/-- The cleanup line of `PersonBase.validate_orcid_format`:
`v.replace('https://orcid.org/', '').replace('http://orcid.org/', '').strip()`. -/
def cleanOrcid (v : Str) : Str :=
  pyStrip (replaceAllSub "http://orcid.org/".toList []
    (replaceAllSub "https://orcid.org/".toList [] v))

/-- `PersonBase.validate_orcid_format` (src/models/person.py) on a
non-`None` value: accept length 19 with exactly 3 dashes unchanged,
re-dash length 16 with no dash, reject everything else. -/
def validate_orcid_format (v : Str) : Except Str Str :=
  let w := cleanOrcid v
  if w.length == 19 && countChar '-' w == 3 then .ok w
  else if w.length == 16 && !(w.any (fun c => c == '-')) then .ok (insertOrcidDashes w)
  else .error ("Invalid ORCID format: ".toList ++ w)

/-! ## src/loaders/streaming_loader.py: nested-entity extraction -/

/-- A person reference (`PersonData` dict): its `Id` entry, the `_es_id`
entry the extraction adds, and the remaining entries kept opaque. -/
structure PersonRefD where
  pid : Option Str
  esId : Option Str
  payload : Nat
deriving DecidableEq, Repr

/-- An organization reference (`OrganizationData` dict), like `PersonRefD`. -/
structure OrgRefD where
  oid : Option Str
  esId : Option Str
  payload : Nat
deriving DecidableEq, Repr

/-- One element of a person's `Organizations` array: `none` when the
element is not a dict (skipped by the `isinstance` guards); a missing
`OrganizationData` key yields the empty reference. -/
structure OrgEntryD where
  organizationData : OrgRefD
deriving DecidableEq, Repr

/-- One element of a publication's `Persons` array, `none` when not a dict. -/
structure PersonEntryD where
  personData : PersonRefD
  organizations : List (Option OrgEntryD)
deriving DecidableEq, Repr

/-- One ES publication document: its `_id` and the `Persons` array of
its `_source` (a missing `_source` behaves as an empty array). -/
structure PubDocD where
  docId : Option Str
  persons : List (Option PersonEntryD)
deriving DecidableEq, Repr

/-- Insertion-ordered dicts keyed by entity ID, as the extraction uses. -/
abbrev PersonDict := List (Str × PersonRefD)

/-- Like `PersonDict`, for organizations. -/
abbrev OrgDict := List (Str × OrgRefD)

/-- `k in d` on a Python dict. -/
def keyMem {α : Type} (k : Str) (m : List (Str × α)) : Bool :=
  m.any (fun kv => kv.1 == k)

/-- The inner organizations loop of
`extract_nested_entities_from_publications`: add each dict entry whose
`Id` is truthy and not yet a key, setting its `_es_id`. -/
def addOrgs : List (Option OrgEntryD) → OrgDict → OrgDict
  | [], m => m
  | none :: rest, m => addOrgs rest m
  | some oe :: rest, m =>
    match pyTruthyStr oe.organizationData.oid with
    | some oid =>
      if keyMem oid m then addOrgs rest m
      else addOrgs rest (m ++ [(oid, { oe.organizationData with esId := some oid })])
    | none => addOrgs rest m

/-- The persons loop of `extract_nested_entities_from_publications`:
add each new person by `Id` (setting `_es_id`), and walk its
organizations whether or not the person was new. -/
def addPersons : List (Option PersonEntryD) → PersonDict × OrgDict → PersonDict × OrgDict
  | [], s => s
  | none :: rest, s => addPersons rest s
  | some pe :: rest, s =>
    let pd' :=
      match pyTruthyStr pe.personData.pid with
      | some pid =>
        if keyMem pid s.1 then s.1
        else s.1 ++ [(pid, { pe.personData with esId := some pid })]
      | none => s.1
    addPersons rest (pd', addOrgs pe.organizations s.2)

/-- The result of `extract_nested_entities_from_publications`: the
`persons` and `organizations` dict values in insertion order, and the
`publication_ids` list. -/
structure ExtractedEntities where
  persons : List PersonRefD
  organizations : List OrgRefD
  publication_ids : List Str
deriving DecidableEq, Repr

/-- The outer loop of `extract_nested_entities_from_publications`. -/
def extractGo : List PubDocD → PersonDict → OrgDict → List Str → PersonDict × OrgDict × List Str
  | [], pd, od, ids => (pd, od, ids)
  | doc :: rest, pd, od, ids =>
    let ids' :=
      match pyTruthyStr doc.docId with
      | some i => ids ++ [i]
      | none => ids
    let s := addPersons doc.persons (pd, od)
    extractGo rest s.1 s.2 ids'

/-- `StreamingESDataReader.extract_nested_entities_from_publications`
(src/loaders/streaming_loader.py). -/
def extract_nested_entities_from_publications (pubs : List PubDocD) : ExtractedEntities :=
  let r := extractGo pubs [] [] []
  ⟨r.1.map (fun kv => kv.2), r.2.1.map (fun kv => kv.2), r.2.2⟩

/-! ## src/loaders/streaming_loader.py: batch streaming -/

/-- The `while current_offset < total_docs` loop of
`stream_publication_batches`, with the 1-based batch counter and the
max-batches cap.  Fuel bounds the loop; `docs.length + 1` is enough
because the offset strictly grows while below the length. -/
def streamGo {α : Type} (docs : List α) (bs : Nat) (maxB : Option Nat) :
    Nat → Nat → Nat → List (Nat × List α)
  | 0, _, _ => []
  | fuel + 1, bn, cur =>
    if cur < docs.length then
      if (match maxB with | some m => decide (m ≤ bn) | none => false) then []
      else
        let batch := (docs.drop cur).take bs
        if batch.isEmpty then []
        else (bn + 1, batch) :: streamGo docs bs maxB fuel (bn + 1) (min (cur + bs) docs.length)
    else []

/-- `StreamingESDataReader.stream_publication_batches`
(src/loaders/streaming_loader.py): the finite sequence of
`(batch_number, batch)` pairs yielded from `start_offset`. -/
def stream_publication_batches {α : Type} (docs : List α) (bs so : Nat)
    (maxB : Option Nat) : List (Nat × List α) :=
  streamGo docs bs maxB (docs.length + 1) 0 so

/-- The in-memory checkpoint values
`progress['last_processed_offset'] = start_offset + batch_num * batch_size`
written after each batch by `IncrementalDataLoader.run_incremental_loading`
(src/loaders/incremental_loader.py, line 441), in batch order. -/
def loaderOffsets {α : Type} (docs : List α) (bs so : Nat) (maxB : Option Nat) : List Nat :=
  (stream_publication_batches docs bs so maxB).map (fun p => so + p.1 * bs)

/-- Plain chunking of a list into pieces of size `bs` (the last piece
may be shorter); the reference shape the streamed batches are compared
with. -/
def chunksOf {α : Type} (bs : Nat) : List α → List (List α)
  | [] => []
  | x :: xs =>
    if bs = 0 then [] else (x :: xs).take bs :: chunksOf bs ((x :: xs).drop bs)
termination_by l => l.length
decreasing_by
  rename_i hbs
  simp only [List.length_drop, List.length_cons]
  omega

/-! ## src/loaders/incremental_loader.py: the Entity Tracker -/

/-- The three entity kinds the tracker's `_existing_entities` dict is
created with (`Person`, `Publication`, `Organization`). -/
inductive EntityKind
  | person
  | publication
  | organization
deriving DecidableEq, Repr

/-- The `EntityTracker` state after hydration: one ID set per kind
(sets modelled as lists; only membership is observed). -/
structure EntityTracker where
  persons : List Str
  publications : List Str
  organizations : List Str
deriving DecidableEq, Repr

/-- The ID set of one kind. -/
def trackerSet (t : EntityTracker) : EntityKind → List Str
  | .person => t.persons
  | .publication => t.publications
  | .organization => t.organizations

/-- `EntityTracker.is_entity_existing` (after hydration). -/
def is_entity_existing (t : EntityTracker) (k : EntityKind) (i : Str) : Bool :=
  memS i (trackerSet t k)

/-- `EntityTracker.mark_entity_loaded`: `set.add` on the kind's set. -/
def mark_entity_loaded (t : EntityTracker) (k : EntityKind) (i : Str) : EntityTracker :=
  match k with
  | .person => { t with persons := t.persons ++ [i] }
  | .publication => { t with publications := t.publications ++ [i] }
  | .organization => { t with organizations := t.organizations ++ [i] }

/-- One candidate node dict: its `id` entry and the rest kept opaque. -/
structure EntityRecord where
  idField : Option Str
  payload : Nat
deriving DecidableEq, Repr

/-- `EntityTracker.get_new_entities`: keep the candidates whose `id` is
truthy and not yet in the kind's set. -/
def get_new_entities (t : EntityTracker) (k : EntityKind) : List EntityRecord → List EntityRecord
  | [] => []
  | e :: es =>
    match pyTruthyStr e.idField with
    | some i =>
      if is_entity_existing t k i then get_new_entities t k es
      else e :: get_new_entities t k es
    | none => get_new_entities t k es

/-- `mark_entity_loaded` called once per ID, as the loader does after
writing a batch. -/
def markAll (t : EntityTracker) (k : EntityKind) (ids : List Str) : EntityTracker :=
  ids.foldl (fun a i => mark_entity_loaded a k i) t

/-! ## Dynamic values and the ambient clock -/

/-- The ambient state `datetime.now()` reads: the calendar year the
validators compare against, and the rest of the timestamp (which no
transformer observes). -/
structure World where
  year : Int
  tick : Nat
deriving DecidableEq, Repr

/-- A dynamically-typed scalar from the source JSON, where the code
branches on its runtime type: an int, a float (modelled as a rational)
or a string. -/
inductive PyVal
  | i (z : Int)
  | f (q : ℚ)
  | s (v : Str)
deriving DecidableEq, Repr

/-- Python truthiness of a scalar: `0`, `0.0` and `""` are falsy. -/
def pyTruthy : PyVal → Bool
  | .i z => decide (z ≠ 0)
  | .f q => decide (q ≠ 0)
  | .s v => !v.isEmpty

/-- Decimal digits to a number; `none` on a non-digit. -/
def digitsValGo (acc : Nat) : Str → Option Nat
  | [] => some acc
  | c :: t => if c.isDigit then digitsValGo (acc * 10 + (c.toNat - 48)) t else none

/-- A non-empty all-digit string to a number. -/
def digitsVal : Str → Option Nat
  | [] => none
  | c :: t => digitsValGo 0 (c :: t)

/-- Python `int(s)` on a string: optional surrounding whitespace, an
optional sign, then digits (the underscore and base forms the sources
never receive are not modelled). -/
def pyIntOfStr (v : Str) : Option Int :=
  match pyStrip v with
  | [] => none
  | c :: rest =>
    if c == '-' then (digitsVal rest).map (fun n => -(n : Int))
    else if c == '+' then (digitsVal rest).map (fun n => (n : Int))
    else (digitsVal (c :: rest)).map (fun n => (n : Int))

/-- Python `int(x)` on a float: truncation toward zero. -/
def ratTrunc (q : ℚ) : Int := if q < 0 then -(Int.floor (-q)) else Int.floor q

/-- The digits-dot-digits core of a float literal. -/
def pyRatParse (s : Str) : Option ℚ :=
  let ip := s.takeWhile (fun c => !(c == '.'))
  let rest := s.dropWhile (fun c => !(c == '.'))
  match rest with
  | [] => (digitsVal ip).map (fun n => (n : ℚ))
  | _ :: frac =>
    if ip.isEmpty && frac.isEmpty then none
    else
      match (if ip.isEmpty then some 0 else digitsVal ip),
            (if frac.isEmpty then some 0 else digitsVal frac) with
      | some a, some b => some ((a : ℚ) + (b : ℚ) / ((10 : ℚ) ^ frac.length))
      | _, _ => none

/-- Python `float(s)` on a string: optional whitespace, optional sign,
digits with an optional fraction (the exponent and inf/nan forms the
geographic data never uses are not modelled). -/
def pyFloatOfStr (v : Str) : Option ℚ :=
  match pyStrip v with
  | [] => none
  | c :: rest =>
    if c == '-' then (pyRatParse rest).map (fun q => -q)
    else if c == '+' then pyRatParse rest
    else pyRatParse (c :: rest)

/-- Python `float(x)` on a scalar. -/
def pyFloatOfVal : PyVal → Option ℚ
  | .i z => some (z : ℚ)
  | .f q => some q
  | .s v => pyFloatOfStr v

/-- The first truthy value of `a or b or c` on optional strings, as the
`doc_id = es_id or es_doc.get('Id') or es_doc.get('_es_id')` chains use. -/
def firstTruthy3 (a b c : Option Str) : Option Str :=
  match pyTruthyStr a with
  | some s => some s
  | none =>
    match pyTruthyStr b with
    | some s => some s
    | none => pyTruthyStr c

/-! ## src/transformers/es_transformer.py: transform_person -/

/-- One element of a person's `Identifiers` array (`none` outside: not
a dict).  `typeValue` is `some v` when `Type` is a dict (`v = ""` when
`Value` is missing) and `none` when `Type` is present but not a dict. -/
structure IdentifierD where
  isActive : Bool
  typeValue : Option Str
  value : Str
deriving DecidableEq, Repr

/-- The person `_source` fields `transform_person` reads.  Array fields
that are present but not lists behave as empty (the `isinstance` guards). -/
structure PersonSource where
  idField : Option Str
  esIdField : Option Str
  displayName : Option Str
  firstName : Option Str
  lastName : Option Str
  birthYear : Option PyVal
  identifierOrcid : List Str
  identifiers : List (Option IdentifierD)
  identifierCplPersonId : List Str
deriving DecidableEq, Repr

/-- The `Identifiers` scan of `transform_person`: the first active dict
entry whose `Type.Value` is `RESEARCHER_ID`, if any, gives its `Value`. -/
def findScopusId : List (Option IdentifierD) → Option Str
  | [] => none
  | none :: rest => findScopusId rest
  | some idd :: rest =>
    if idd.isActive then
      match idd.typeValue with
      | some tv => if tv == "RESEARCHER_ID".toList then some idd.value else findScopusId rest
      | none => findScopusId rest
    else findScopusId rest

/-- `PersonCreate` (src/models/person.py) as validated data.  `email` is
always absent in this flow and is omitted. -/
structure PersonCreate where
  id : Str
  displayName : Str
  firstName : Option Str
  lastName : Option Str
  birthYear : Option Int
  orcid : Option Str
  scopusAuthorId : Option Str
  cid : Option Str
deriving DecidableEq, Repr

/-- Construction of a `PersonCreate`: the pydantic field checks in
field order, first failure first (error texts abbreviate pydantic's).
The birth-year plausibility check reads the clock:
`v > datetime.now().year - 15` is rejected. -/
def mkPersonCreate (w : World) (idv dn : Str) (fn ln : Option Str) (byr : Option Int)
    (orc sc cid : Option Str) : Except Str PersonCreate := do
  let id' := pyStrip idv
  if id'.isEmpty then throw "Person ID cannot be empty".toList
  if dn.isEmpty then throw "displayName: too short".toList
  let dn' := pyStrip dn
  if dn'.isEmpty then throw "Person displayName cannot be empty".toList
  match byr with
  | some v =>
    if v < 1900 ∨ 2020 < v then throw "birthYear: out of range".toList
    if w.year - 15 < v then throw "Birth year seems too recent".toList
  | none => pure ()
  let orc' ← match orc with
    | some o => do pure (some (← validate_orcid_format o))
    | none => pure none
  pure ⟨id', dn', fn, ln, byr, orc', sc, cid⟩

/-- `ESTransformer.transform_person` (src/transformers/es_transformer.py). -/
def transform_person (w : World) (d : PersonSource) (esId : Option Str) :
    Except Str PersonCreate := do
  let docId ← match firstTruthy3 esId d.idField d.esIdField with
    | some i => pure i
    | none => throw "No valid ES ID found for person document".toList
  let dn := pyStrip (d.displayName.getD [])
  if dn.isEmpty then throw "DisplayName is required for person".toList
  let fn := pyStrip (d.firstName.getD [])
  let ln := pyStrip (d.lastName.getD [])
  let byr : Option Int :=
    match d.birthYear with
    | none => none
    | some (.i z) => if z = 0 then none else some z
    | some (.s sv) =>
      if sv.isEmpty then none
      else
        match pyIntOfStr sv with
        | some n => if n = 0 then none else some n
        | none => none
    | some (.f q) =>
      if q = 0 then none
      else if ratTrunc q = 0 then none else some (ratTrunc q)
  let orc : Option Str :=
    match d.identifierOrcid with
    | [] => none
    | x :: _ => pyTruthyStr (some (pyStrip x))
  let sc : Option Str :=
    match findScopusId d.identifiers with
    | some v => pyTruthyStr (some v)
    | none => none
  let cid : Option Str :=
    match d.identifierCplPersonId with
    | [] => none
    | x :: _ => pyTruthyStr (some x)
  mkPersonCreate w docId dn (pyTruthyStr (some fn)) (pyTruthyStr (some ln)) byr orc sc cid

/-! ## src/transformers/es_transformer.py: transform_publication -/

/-- The `PublicationType` field: absent (`get` default `{}`), present
but not a dict, or a dict with its `NameEng` (missing key → `""`). -/
inductive PubTypeField
  | missing
  | notDict
  | objD (nameEng : Str)
deriving DecidableEq, Repr

/-- The publication-kind inference of `transform_publication`: lowercase
the label and match the keyword groups in order, defaulting to
`article` (also when the label is empty or not available). -/
def inferPublicationType : PubTypeField → Str
  | .notDict => "article".toList
  | .missing => "article".toList
  | .objD ne =>
    let tn := toLowerL ne
    if tn.isEmpty then "article".toList
    else if containsSub "book".toList tn then "book".toList
    else if containsSub "conference".toList tn || containsSub "proceeding".toList tn then
      "conference".toList
    else if containsSub "thesis".toList tn || containsSub "dissertation".toList tn then
      "thesis".toList
    else "article".toList

/-- The `Source.SourceSerial` dict (`none` when `Source` or
`SourceSerial` is not a dict). -/
structure SerialD where
  title : Option Str
  publisher : Option Str
deriving DecidableEq, Repr

/-- One element of the `Keywords` array: a string, a dict (with or
without a `Value` key), or anything else. -/
inductive KeywordEntry
  | strv (v : Str)
  | dictv (value : Option Str)
  | other
deriving DecidableEq, Repr

/-- The publication `_source` fields `transform_publication` reads. -/
structure PublicationSource where
  idField : Option Str
  esIdField : Option Str
  title : Option Str
  year : Option PyVal
  pubType : PubTypeField
  abstract : Option Str
  languageIso : Option Str
  identifierDoi : List Str
  identifierScopusId : List Str
  identifierPubmedId : List Str
  identifierIsbn : List Str
  sourceSerial : Option SerialD
  detailsUrlEng : Option Str
  keywords : List KeywordEntry
deriving DecidableEq, Repr

/-- `PublicationCreate` (src/models/publication.py) as validated data. -/
structure PublicationCreate where
  id : Str
  title : Str
  year : Int
  publicationType : Str
  abstract : Option Str
  language : Option Str
  doi : Option Str
  scopusId : Option Str
  pubmedId : Option Str
  isbn : Option Str
  journalTitle : Option Str
  journalPublisher : Option Str
  detailsUrlEng : Option Str
  text : Option Str
deriving DecidableEq, Repr

/-- `PublicationBase.validate_doi_format` on a non-`None` value: strip,
remove the URL/scheme forms, require a slash. -/
def validate_doi_format (v : Str) : Except Str Str :=
  let v1 := pyStrip v
  let v2 := replaceAllSub "doi:".toList []
    (replaceAllSub "http://doi.org/".toList []
      (replaceAllSub "https://doi.org/".toList [] v1))
  if v2.any (fun c => c == '/') then .ok v2
  else .error ("Invalid DOI format: ".toList ++ v2)

/-- Construction of a `PublicationCreate`: the pydantic checks in field
order.  The year plausibility check reads the clock:
`v > datetime.now().year + 2` is rejected. -/
def mkPublicationCreate (w : World) (idv title : Str) (year : Int) (ptype : Str)
    (abs lang doi sco pmid isbn jt jp du text : Option Str) :
    Except Str PublicationCreate := do
  let id' := pyStrip idv
  if id'.isEmpty then throw "Publication ID cannot be empty".toList
  if title.isEmpty then throw "title: too short".toList
  let t' := pyStrip title
  if t'.isEmpty then throw "Publication title cannot be empty".toList
  if year < 1900 ∨ 2030 < year then throw "year: out of range".toList
  if w.year + 2 < year then throw "Publication year is too far in the future".toList
  let pt' := pyStrip ptype
  let doi' ← match doi with
    | some v => do pure (some (← validate_doi_format v))
    | none => pure none
  pure ⟨id', t', year, pt', abs, lang, doi', sco, pmid, isbn, jt, jp, du, text⟩

/-- First element of an identifier array, stripped, `None` when absent
or empty. -/
def firstStripped (l : List Str) : Option Str :=
  match l with
  | [] => none
  | x :: _ => pyTruthyStr (some (pyStrip x))

/-- The keyword-collecting loop of `transform_publication`. -/
def keywordStrings : List KeywordEntry → List Str
  | [] => []
  | .strv v :: rest => v :: keywordStrings rest
  | .dictv (some v) :: rest => v :: keywordStrings rest
  | .dictv none :: rest => keywordStrings rest
  | .other :: rest => keywordStrings rest

/-- `ESTransformer.transform_publication` (src/transformers/es_transformer.py). -/
def transform_publication (w : World) (d : PublicationSource) (esId : Option Str) :
    Except Str PublicationCreate := do
  let docId ← match firstTruthy3 esId d.idField d.esIdField with
    | some i => pure i
    | none => throw "No valid ES ID found for publication document".toList
  let title := pyStrip (d.title.getD [])
  if title.isEmpty then throw "Title is required for publication".toList
  let yearV : Int ← match d.year with
    | none => throw "Year is required for publication".toList
    | some v =>
      if !pyTruthy v then throw "Year is required for publication".toList
      else
        match v with
        | .i z => pure z
        | .f q => pure (ratTrunc q)
        | .s sv =>
          match pyIntOfStr sv with
          | some n => pure n
          | none => throw "Invalid year format".toList
  let ptype := inferPublicationType d.pubType
  let abs0 := pyStrip (d.abstract.getD [])
  let lang : Str :=
    match d.languageIso with
    | some iso =>
      let i := toLowerL iso
      if i == "en".toList || i == "sv".toList || i == "de".toList
          || i == "fr".toList || i == "es".toList then i
      else "en".toList
    | none => "en".toList
  let kws := keywordStrings d.keywords
  let textParts := [title] ++ (if abs0.isEmpty then [] else [abs0])
    ++ (if kws.isEmpty then [] else [pyJoin " ".toList kws])
  let text := pyJoin " ".toList textParts
  mkPublicationCreate w docId title yearV ptype
    (pyTruthyStr (some abs0)) (some lang)
    (firstStripped d.identifierDoi) (firstStripped d.identifierScopusId)
    (firstStripped d.identifierPubmedId) (firstStripped d.identifierIsbn)
    (match d.sourceSerial with
     | some sd => pyTruthyStr (some (pyStrip (sd.title.getD [])))
     | none => none)
    (match d.sourceSerial with
     | some sd => pyTruthyStr (some (pyStrip (sd.publisher.getD [])))
     | none => none)
    (pyTruthyStr (some (pyStrip (d.detailsUrlEng.getD []))))
    (some text)

/-! ## src/transformers/es_transformer.py: transform_organization -/

/-- The organization `_source` fields `transform_organization` reads.
`organizationTypes` elements are the `NameEng` of each dict entry
(`none` for a non-dict entry). -/
structure OrganizationSource where
  idField : Option Str
  esIdField : Option Str
  nameEng : Option Str
  nameSwe : Option Str
  displayNameEng : Option Str
  displayPathEng : Option Str
  level : Option PyVal
  organizationTypes : List (Option Str)
  city : Option Str
  country : Option Str
  geoLat : Option PyVal
  geoLong : Option PyVal
deriving DecidableEq, Repr

/-- `OrganizationCreate` (src/models/organization.py) as validated data.
The fields this flow never sets (`displayNameSwe`, `displayPathSwe`,
`startYear`, `endYear`) are omitted. -/
structure OrganizationCreate where
  id : Str
  nameEng : Str
  nameSwe : Option Str
  displayNameEng : Option Str
  displayPathEng : Option Str
  level : Option Str
  organizationType : Str
  city : Option Str
  country : Option Str
  geoLat : Option ℚ
  geoLong : Option ℚ
deriving DecidableEq, Repr

/-- The `Level` mapping of `transform_organization`: 0 university,
1 department, ≥ 2 unit; anything else keeps the default `department`. -/
def levelTag : PyVal → Str
  | .i z =>
    if z == 0 then "university".toList
    else if z == 1 then "department".toList
    else if 2 ≤ z then "unit".toList
    else "department".toList
  | _ => "department".toList

/-- The `OrganizationTypes` mapping of `transform_organization`: only
the first entry is inspected. -/
def orgTypeTag : List (Option Str) → Str
  | [] => "academic".toList
  | none :: _ => "academic".toList
  | some nm :: _ =>
    let l := toLowerL nm
    if containsSub "research".toList l then "research_institute".toList
    else if containsSub "admin".toList l then "administrative".toList
    else "academic".toList

/-- Construction of an `OrganizationCreate`: the pydantic checks in
field order.  No check reads the clock. -/
def mkOrganizationCreate (idv ne : Str) (nsw dne dpe : Option Str) (lvl : Option Str)
    (otype : Str) (city country : Option Str) (glat glong : Option ℚ) :
    Except Str OrganizationCreate := do
  let id' := pyStrip idv
  if id'.isEmpty then throw "Organization ID cannot be empty".toList
  if ne.isEmpty then throw "nameEng: too short".toList
  let ne' := pyStrip ne
  if ne'.isEmpty then throw "Organization nameEng cannot be empty".toList
  match glat with
  | some q => if q < -90 ∨ 90 < q then throw "geoLat: out of range".toList
  | none => pure ()
  match glong with
  | some q => if q < -180 ∨ 180 < q then throw "geoLong: out of range".toList
  | none => pure ()
  pure ⟨id', ne', nsw, dne, dpe, lvl, otype, city, country, glat, glong⟩

/-- `ESTransformer.transform_organization`
(src/transformers/es_transformer.py).  The `World` parameter records
that the ambient clock is available to it; it is never read. -/
def transform_organization (_w : World) (d : OrganizationSource) (esId : Option Str) :
    Except Str OrganizationCreate := do
  let docId ← match firstTruthy3 esId d.idField d.esIdField with
    | some i => pure i
    | none => throw "No valid ES ID found for organization document".toList
  let ne0 : Str :=
    match pyTruthyStr d.nameEng with
    | some s => s
    | none => d.displayNameEng.getD []
  if ne0.isEmpty then throw "NameEng is required for organization".toList
  let ne := pyStrip ne0
  let glat : Option ℚ :=
    match d.geoLat with
    | some v => if pyTruthy v then pyFloatOfVal v else none
    | none => none
  let glong : Option ℚ :=
    match d.geoLong with
    | some v => if pyTruthy v then pyFloatOfVal v else none
    | none => none
  mkOrganizationCreate docId ne
    (pyTruthyStr (some (pyStrip (d.nameSwe.getD []))))
    (pyTruthyStr (some (pyStrip (d.displayNameEng.getD []))))
    (pyTruthyStr (some (pyStrip (d.displayPathEng.getD []))))
    (some (levelTag (d.level.getD (PyVal.i 0))))
    (orgTypeTag d.organizationTypes)
    (pyTruthyStr (some (pyStrip (d.city.getD []))))
    (pyTruthyStr (some (pyStrip (d.country.getD []))))
    glat glong

/-! ## Definitions for the analysis: patterns, spec-side functions, fixtures -/

/-- The pattern the validity flag searches for. -/
def warnPat : Str := "WARNING:".toList

/-- All keys and values of a parent map are `WARNING:`-free. -/
def pmNoWarn (pm : StrDict) : Prop :=
  ∀ kv ∈ pm, containsSub warnPat kv.1 = false ∧ containsSub warnPat kv.2 = false

/-- All child and parent ids of a relationship list are `WARNING:`-free. -/
def relsNoWarnP (rels : List OrganizationHierarchy) : Prop :=
  ∀ r ∈ rels, containsSub warnPat r.childId = false ∧ containsSub warnPat r.parentId = false

/-- The free-text type label available to the kind inference: the
`NameEng` of a `PublicationType` dict when non-empty, absent otherwise. -/
def pubTypeLabel : PubTypeField → Option Str
  | .objD ne => if ne.isEmpty then none else some ne
  | .missing => none
  | .notDict => none

/-- The publication kind as the specification words it: ordered
substring matching of the keyword groups over the (lowercased) label,
`article` for every other label and for an absent label. -/
def specPublicationKind (label : Option Str) : Str :=
  match label with
  | none => "article".toList
  | some l =>
    let t := toLowerL l
    if containsSub "book".toList t then "book".toList
    else if containsSub "conference".toList t || containsSub "proceeding".toList t then
      "conference".toList
    else if containsSub "thesis".toList t || containsSub "dissertation".toList t then
      "thesis".toList
    else "article".toList

/-- Invariant of the persons dict of the nested-entity extraction: keys
are distinct and each stored reference's `Id` is its key. -/
def personDictInv (pd : PersonDict) : Prop :=
  (pd.map Prod.fst).Nodup ∧ ∀ kv ∈ pd, kv.2.pid = some kv.1

/-- Invariant of the organizations dict of the nested-entity extraction. -/
def orgDictInv (od : OrgDict) : Prop :=
  (od.map Prod.fst).Nodup ∧ ∀ kv ∈ od, kv.2.oid = some kv.1

/-- The A→B→C→A organization records of the spec's cycle scenario. -/
def orgsABC : List OrgRecord :=
  [⟨some ['A'], some ['B']⟩, ⟨some ['B'], some ['C']⟩, ⟨some ['C'], some ['A']⟩]

/-- Records whose edges A→B, B→A, B→C form a cycle (A→B→A) that the
last-seen parent mapping hides: the later B→C edge overwrites B's
parent, so the cycle walk never closes. -/
def orgsBA : List OrgRecord :=
  [⟨some ['A'], some ['B']⟩, ⟨some ['B'], some ['A']⟩, ⟨some ['B'], some ['C']⟩]

/-- A single self-referencing edge whose id contains the flag pattern. -/
def relsWarnTrick : List OrganizationHierarchy :=
  [⟨"WARNING:x".toList, "WARNING:x".toList⟩]

/-- A well-formed publication source whose year sits in the
clock-sensitive window (allowed by the static 1900..2030 bounds, decided
by the `current_year + 2` check). -/
def pubSrcY2030 : PublicationSource :=
  ⟨some "P1".toList, none, some ['T'], some (.i 2030), .missing, none, none,
    [], [], [], [], none, none, []⟩

/-- A publication source with a conference-proceedings type label. -/
def pubSrcConference : PublicationSource :=
  ⟨some "P1".toList, none, some ['T'], some (.i 2020),
    .objD "Paper in Conference Proceedings".toList, none, none,
    [], [], [], [], none, none, []⟩

/-- The validated record `transform_publication` produces for
`pubSrcConference`. -/
def pubConferenceOut : PublicationCreate :=
  ⟨"P1".toList, ['T'], 2020, "conference".toList, none, some "en".toList,
    none, none, none, none, none, none, none, some ['T']⟩

/-! ## Substring lemmas

`validate_hierarchy` classifies its own messages by substring search
(`"WARNING:" in error`), so the analysis of its validity flag needs a
small theory of `containsSub` around space-separated message pieces. -/

/-- The spelling of the step-1 message on a sample id. -/
theorem selfRefMsg_spelling :
    selfRefMsg ['X'] = "CRITICAL: Self-reference detected - X is parent of itself".toList := by
  decide

/-- The spelling of the step-3 message on a sample path. -/
theorem cycleMsg_spelling :
    cycleMsg [['A'], ['B'], ['A']] = "Cycle detected: A -> B -> A".toList := by
  decide

theorem isPre_append_of (p x y : Str) (h : isPre p x = true) : isPre p (x ++ y) = true := by
  induction p generalizing x with
  | nil => rfl
  | cons a as ih =>
    cases x with
    | nil => simp [isPre] at h
    | cons b x' =>
      simp only [isPre, Bool.and_eq_true] at h
      simp [isPre, h.1, ih x' h.2]

theorem containsSub_of_isPre (p t : Str) (h : isPre p t = true) : containsSub p t = true := by
  cases t with
  | nil => simpa [containsSub] using h
  | cons c t' => simp [containsSub, h]

theorem containsSub_nil_of_ne (p : Str) (hp : p ≠ []) : containsSub p [] = false := by
  cases p with
  | nil => exact absurd rfl hp
  | cons a as => rfl

/-- A space-free pattern starts `x ++ ' ' :: y` iff it starts `x`. -/
theorem isPre_append_space (p : Str) (hs : ' ' ∉ p) (x y : Str) :
    isPre p (x ++ ' ' :: y) = isPre p x := by
  induction p generalizing x with
  | nil => rfl
  | cons a as ih =>
    have ha : (a == ' ') = false := by
      have h1 : a ≠ ' ' := fun h => hs (by rw [h]; exact List.mem_cons_self _ _)
      simpa using h1
    have hs' : ' ' ∉ as := fun h => hs (List.mem_cons_of_mem _ h)
    cases x with
    | nil => simp [isPre, ha]
    | cons b x' => simp [isPre, ih hs']

/-- A space-free pattern occurs in `x ++ ' ' :: y` iff it occurs in one
of the two sides: no occurrence can span the space. -/
theorem containsSub_append_space (p : Str) (hp : p ≠ []) (hs : ' ' ∉ p) (x y : Str) :
    containsSub p (x ++ ' ' :: y) = (containsSub p x || containsSub p y) := by
  induction x with
  | nil =>
    cases p with
    | nil => exact absurd rfl hp
    | cons a as =>
      have ha : (a == ' ') = false := by
        have h1 : a ≠ ' ' := fun h => hs (by rw [h]; exact List.mem_cons_self _ _)
        simpa using h1
      simp [containsSub, isPre, ha]
  | cons b x' ih =>
    have e : (b :: x') ++ ' ' :: y = b :: (x' ++ ' ' :: y) := rfl
    rw [e]
    show (isPre p (b :: (x' ++ ' ' :: y)) || containsSub p (x' ++ ' ' :: y)) = _
    rw [show b :: (x' ++ ' ' :: y) = (b :: x') ++ ' ' :: y from rfl,
      isPre_append_space p hs (b :: x') y, ih]
    show _ = ((isPre p (b :: x') || containsSub p x') || containsSub p y)
    rw [Bool.or_assoc]

/-- A message sandwich `pre ++ ' ' :: (mid ++ ' ' :: suf)` is free of a
space-free pattern when all three pieces are. -/
theorem containsSub_sandwich (p pre mid suf : Str) (hp : p ≠ []) (hs : ' ' ∉ p)
    (hpre : containsSub p pre = false) (hmid : containsSub p mid = false)
    (hsuf : containsSub p suf = false) :
    containsSub p (pre ++ ' ' :: (mid ++ ' ' :: suf)) = false := by
  rw [containsSub_append_space p hp hs, containsSub_append_space p hp hs]
  simp [hpre, hmid, hsuf]

theorem warnPat_ne_nil : warnPat ≠ [] := by decide

theorem warnPat_no_space : ' ' ∉ warnPat := by decide

/-- A self-reference message carries no `WARNING:` when the id does not. -/
theorem selfRefMsg_no_warn (child : Str) (h : containsSub warnPat child = false) :
    containsSub warnPat (selfRefMsg child) = false := by
  unfold selfRefMsg
  exact containsSub_sandwich warnPat _ child _ warnPat_ne_nil warnPat_no_space
    (by decide) h (by decide)

/-- The ` -> `-join of `WARNING:`-free ids is `WARNING:`-free. -/
theorem pyJoin_arrow_no_warn (xs : List Str)
    (h : ∀ x ∈ xs, containsSub warnPat x = false) :
    containsSub warnPat (pyJoin " -> ".toList xs) = false := by
  induction xs with
  | nil => exact containsSub_nil_of_ne warnPat warnPat_ne_nil
  | cons x xs ih =>
    cases xs with
    | nil => simpa [pyJoin] using h x (List.mem_cons_self _ _)
    | cons y ys =>
      have hx : containsSub warnPat x = false := h x (List.mem_cons_self _ _)
      have hrest : containsSub warnPat (pyJoin " -> ".toList (y :: ys)) = false :=
        ih (fun z hz => h z (List.mem_cons_of_mem _ hz))
      show containsSub warnPat (x ++ " -> ".toList ++ pyJoin " -> ".toList (y :: ys)) = false
      rw [show x ++ " -> ".toList ++ pyJoin " -> ".toList (y :: ys)
          = x ++ ' ' :: (['-', '>'] ++ ' ' :: pyJoin " -> ".toList (y :: ys)) by
        simp]
      rw [containsSub_append_space warnPat warnPat_ne_nil warnPat_no_space,
        containsSub_append_space warnPat warnPat_ne_nil warnPat_no_space]
      simp only [hx, show containsSub warnPat ['-', '>'] = false by decide,
        Bool.false_or]
      exact hrest

/-- A cycle message carries no `WARNING:` when none of the path ids does. -/
theorem cycleMsg_no_warn (path : List Str)
    (h : ∀ x ∈ path, containsSub warnPat x = false) :
    containsSub warnPat (cycleMsg path) = false := by
  unfold cycleMsg
  rw [containsSub_append_space warnPat warnPat_ne_nil warnPat_no_space]
  simp only [Bool.or_eq_false_iff]
  exact ⟨by decide, pyJoin_arrow_no_warn path h⟩

/-- The multi-parent message always carries `WARNING:`: it is its head. -/
theorem multiParentMsg_warn (items : List Str) :
    containsSub warnPat (multiParentMsg items) = true := by
  unfold multiParentMsg
  exact containsSub_of_isPre _ _
    (isPre_append_of warnPat "WARNING: Organizations with multiple parents: ".toList _
      (by decide))

/-! ## Which ids reach which diagnostic messages -/

theorem dictFind_mem (k v : Str) (m : StrDict) (h : dictFind k m = some v) : (k, v) ∈ m := by
  unfold dictFind at h
  cases hf : m.find? (fun kv => kv.1 == k) with
  | none => rw [hf] at h; cases h
  | some kv =>
    rw [hf] at h
    have hk : kv.1 = k := by simpa using List.find?_some hf
    have hv : kv.2 = v := by simpa using h
    have hm := List.mem_of_find?_eq_some hf
    have : kv = (k, v) := by
      cases kv
      simp only [Prod.mk.injEq]
      exact ⟨hk, hv⟩
    rwa [this] at hm

theorem dictInsert_pmNoWarn (k v : Str) (m : StrDict) (hm : pmNoWarn m)
    (hk : containsSub warnPat k = false) (hv : containsSub warnPat v = false) :
    pmNoWarn (dictInsert k v m) := by
  unfold dictInsert
  split
  · intro x hx
    rcases List.mem_map.mp hx with ⟨kv₀, hkv₀, he⟩
    by_cases hb : (kv₀.1 == k) = true
    · rw [if_pos hb] at he
      rcases he with rfl
      exact ⟨(hm kv₀ hkv₀).1, hv⟩
    · rw [if_neg hb] at he
      rcases he with rfl
      exact hm kv₀ hkv₀
  · intro x hx
    rcases List.mem_append.mp hx with h1 | h1
    · exact hm x h1
    · rcases List.mem_singleton.mp h1 with rfl
      exact ⟨hk, hv⟩

theorem buildParentMap_go_pmNoWarn (rels : List OrganizationHierarchy) :
    ∀ m : StrDict, pmNoWarn m → relsNoWarnP rels →
      pmNoWarn (rels.foldl
        (fun m r => if r.childId == r.parentId then m
          else dictInsert r.childId r.parentId m) m) := by
  induction rels with
  | nil => intro m hm _; simpa using hm
  | cons r rs ih =>
    intro m hm hrels
    have hr := hrels r (List.mem_cons_self _ _)
    have hrs : relsNoWarnP rs := fun x hx => hrels x (List.mem_cons_of_mem _ hx)
    simp only [List.foldl_cons]
    split
    · exact ih m hm hrs
    · exact ih _ (dictInsert_pmNoWarn _ _ _ hm hr.1 hr.2) hrs

theorem buildParentMap_pmNoWarn (rels : List OrganizationHierarchy)
    (h : relsNoWarnP rels) : pmNoWarn (buildParentMap rels) :=
  buildParentMap_go_pmNoWarn rels [] (by intro kv hkv; cases hkv) h

theorem walkParents_no_warn (pm : StrDict) (hpm : pmNoWarn pm) :
    ∀ (fuel : Nat) (visited path : List Str) (current : Str) (cp : List Str),
      (∀ x ∈ path, containsSub warnPat x = false) →
      containsSub warnPat current = false →
      walkParents pm fuel visited path current = some cp →
      ∀ x ∈ cp, containsSub warnPat x = false := by
  intro fuel
  induction fuel with
  | zero => intro _ _ _ _ _ _ hw; cases hw
  | succ f ih =>
    intro visited path current cp hpath hcur hw
    unfold walkParents at hw
    cases hf : dictFind current pm with
    | none => rw [hf] at hw; cases hw
    | some parent =>
      rw [hf] at hw
      dsimp only at hw
      by_cases hmem : memS current visited = true
      · rw [if_pos hmem] at hw
        rcases Option.some.inj hw with rfl
        intro x hx
        rcases List.mem_append.mp hx with h1 | h1
        · exact hpath x (List.mem_of_mem_drop h1)
        · rcases List.mem_singleton.mp h1 with rfl
          exact hcur
      · rw [if_neg hmem] at hw
        have hpar : containsSub warnPat parent = false :=
          (hpm (current, parent) (dictFind_mem _ _ _ hf)).2
        have hpath' : ∀ x ∈ path ++ [current], containsSub warnPat x = false := by
          intro x hx
          rcases List.mem_append.mp hx with h1 | h1
          · exact hpath x h1
          · rcases List.mem_singleton.mp h1 with rfl
            exact hcur
        exact ih (current :: visited) (path ++ [current]) parent cp hpath' hpar hw

theorem cycleErrorsGo_no_warn (pm : StrDict) (hpm : pmNoWarn pm) :
    ∀ (keys det : List Str), (∀ k ∈ keys, containsSub warnPat k = false) →
      ∀ m ∈ cycleErrorsGo pm keys det, containsSub warnPat m = false := by
  intro keys
  induction keys with
  | nil => intro det _ m hm; cases hm
  | cons k ks ih =>
    intro det hkeys m hm
    have hk := hkeys k (List.mem_cons_self _ _)
    have hks : ∀ x ∈ ks, containsSub warnPat x = false :=
      fun x hx => hkeys x (List.mem_cons_of_mem _ hx)
    unfold cycleErrorsGo at hm
    by_cases hdet : memS k det = true
    · rw [if_pos hdet] at hm
      exact ih det hks m hm
    · rw [if_neg hdet] at hm
      cases hw : walkParents pm (pm.length + 1) [] [] k with
      | none => rw [hw] at hm; exact ih det hks m hm
      | some cp =>
        rw [hw] at hm
        rcases List.mem_cons.mp hm with rfl | h1
        · exact cycleMsg_no_warn cp
            (walkParents_no_warn pm hpm (pm.length + 1) [] [] k cp
              (by intro x hx; cases hx) hk hw)
        · exact ih (det ++ cp) hks m h1

theorem cycleErrors_no_warn (rels : List OrganizationHierarchy) (h : relsNoWarnP rels) :
    ∀ m ∈ cycleErrors (buildParentMap rels), containsSub warnPat m = false := by
  have hpm := buildParentMap_pmNoWarn rels h
  refine cycleErrorsGo_no_warn _ hpm _ [] ?_
  intro k hk
  rcases List.mem_map.mp hk with ⟨kv, hkv, rfl⟩
  exact (hpm kv hkv).1

theorem selfRefErrors_eq_filter (rels : List OrganizationHierarchy) :
    selfRefErrors rels
      = (rels.filter (fun r => r.childId == r.parentId)).map (fun r => selfRefMsg r.childId) := by
  induction rels with
  | nil => rfl
  | cons r rs ih =>
    by_cases hr : (r.childId == r.parentId) = true
    · simp [selfRefErrors, List.filter_cons, hr, ih]
    · simp [selfRefErrors, List.filter_cons, hr, ih]

theorem selfRefErrors_no_warn (rels : List OrganizationHierarchy) (h : relsNoWarnP rels) :
    ∀ m ∈ selfRefErrors rels, containsSub warnPat m = false := by
  intro m hm
  rw [selfRefErrors_eq_filter] at hm
  rcases List.mem_map.mp hm with ⟨r, hr, rfl⟩
  exact selfRefMsg_no_warn r.childId (h r (List.mem_of_mem_filter hr)).1

theorem warningErrors_warn (rels : List OrganizationHierarchy) :
    ∀ m ∈ warningErrors rels, containsSub warnPat m = true := by
  intro m hm
  unfold warningErrors at hm
  split at hm
  · cases hm
  · rcases List.mem_singleton.mp hm with rfl
    exact multiParentMsg_warn _

/-! ## Self-references and the cleaned edge set -/

theorem foldl_parent_skips_self (rels : List OrganizationHierarchy) :
    ∀ m : StrDict,
      rels.foldl
          (fun m r => if r.childId == r.parentId then m
            else dictInsert r.childId r.parentId m) m
        = (rels.filter (fun r => !(r.childId == r.parentId))).foldl
            (fun m r => if r.childId == r.parentId then m
              else dictInsert r.childId r.parentId m) m := by
  induction rels with
  | nil => intro m; rfl
  | cons r rs ih =>
    intro m
    by_cases hr : (r.childId == r.parentId) = true
    · simp only [List.foldl_cons, List.filter_cons, hr, Bool.not_true, Bool.false_eq_true,
        eq_self_iff_true, if_true, if_false]
      exact ih m
    · have hfalse : (r.childId == r.parentId) = false := Bool.eq_false_iff.mpr hr
      simp only [List.foldl_cons, List.filter_cons, hfalse, Bool.not_false, Bool.false_eq_true,
        eq_self_iff_true, if_true, if_false]
      exact ih _

theorem buildParentMap_skips_self (rels : List OrganizationHierarchy) :
    buildParentMap rels
      = buildParentMap (rels.filter (fun r => !(r.childId == r.parentId))) :=
  foldl_parent_skips_self rels []

theorem candidateRels_no_self (orgs : List OrgRecord) :
    (candidateRels orgs).all (fun r => !(r.childId == r.parentId)) = true := by
  induction orgs with
  | nil => rfl
  | cons o os ih =>
    cases h1 : pyTruthyStr o.idField with
    | none => simpa [candidateRels, h1] using ih
    | some cid =>
      cases h2 : pyTruthyStr o.parentIdField with
      | none => simpa [candidateRels, h1, h2] using ih
      | some pid =>
        by_cases hcp : (cid == pid) = true
        · simpa [candidateRels, h1, h2, hcp] using ih
        · simpa [candidateRels, h1, h2, hcp] using ih

theorem extract_eq_candidateRels (orgs : List OrgRecord) :
    extract_hierarchy_relationships orgs = candidateRels orgs := by
  have hall := List.all_eq_true.mp (candidateRels_no_self orgs)
  simp only [extract_hierarchy_relationships]
  split
  · exact List.filter_eq_self.mpr hall
  · rfl

/-- C5: for every edge set, `validate_hierarchy` reports exactly one
CRITICAL diagnostic per self-reference edge (one message per list entry
with `childId == parentId`, in order, naming the id), the parent map
used for cycle detection is built only from the non-self-reference
edges, and the edge set returned by `extract_hierarchy_relationships`
never contains a self-reference edge. -/
theorem self_reference_diagnostics :
    (∀ rels : List OrganizationHierarchy,
        (validate_hierarchy rels).2
          = selfRefErrors rels ++ cycleErrors (buildParentMap rels) ++ warningErrors rels)
    ∧ (∀ rels : List OrganizationHierarchy,
        selfRefErrors rels
          = (rels.filter (fun r => r.childId == r.parentId)).map
              (fun r => selfRefMsg r.childId))
    ∧ (∀ rels : List OrganizationHierarchy,
        buildParentMap rels
          = buildParentMap (rels.filter (fun r => !(r.childId == r.parentId))))
    ∧ (∀ orgs : List OrgRecord,
        (extract_hierarchy_relationships orgs).all
          (fun r => !(r.childId == r.parentId)) = true) := by
  refine ⟨fun rels => rfl, selfRefErrors_eq_filter, buildParentMap_skips_self, ?_⟩
  intro orgs
  rw [extract_eq_candidateRels]
  exact candidateRels_no_self orgs

/-! ## The validity flag -/

/-- C6 (amended): when no id contains the substring `WARNING:`, the
overall-validity flag is true iff there is no self-reference diagnostic
and no cycle diagnostic (multi-parent warnings alone leave it true),
and the empty edge set is trivially valid with no diagnostics.  (The
hypothesis is needed: the flag is computed by substring search over the
formatted messages, see the counterexample.) -/
theorem validity_flag_amended (rels : List OrganizationHierarchy)
    (h : rels.all (fun r =>
        !(containsSub warnPat r.childId) && !(containsSub warnPat r.parentId)) = true) :
    ((validate_hierarchy rels).1 = true
      ↔ (selfRefErrors rels = [] ∧ cycleErrors (buildParentMap rels) = []))
    ∧ validate_hierarchy ([] : List OrganizationHierarchy) = (true, []) := by
  refine ⟨?_, by decide⟩
  have hP : relsNoWarnP rels := by
    intro r hr
    have h1 := List.all_eq_true.mp h r hr
    simp only [Bool.and_eq_true, Bool.not_eq_true'] at h1
    exact h1
  have hS := selfRefErrors_no_warn rels hP
  have hC := cycleErrors_no_warn rels hP
  have hW := warningErrors_warn rels
  have hfst : (validate_hierarchy rels).1
      = ((selfRefErrors rels ++ cycleErrors (buildParentMap rels) ++ warningErrors rels).isEmpty
        || (selfRefErrors rels ++ cycleErrors (buildParentMap rels) ++ warningErrors rels).all
              (fun e => containsSub warnPat e)) := rfl
  constructor
  · intro hflag
    rw [hfst] at hflag
    rw [Bool.or_eq_true] at hflag
    rcases hflag with he | hall
    · have hnil : selfRefErrors rels ++ cycleErrors (buildParentMap rels)
          ++ warningErrors rels = [] := by
        simpa [List.isEmpty_iff] using he
      simp only [List.append_eq_nil] at hnil
      exact ⟨hnil.1.1, hnil.1.2⟩
    · simp only [List.all_append, Bool.and_eq_true] at hall
      constructor
      · cases hSc : selfRefErrors rels with
        | nil => rfl
        | cons m S' =>
          have hm : containsSub warnPat m = false :=
            hS m (by rw [hSc]; exact List.mem_cons_self _ _)
          have hm' : containsSub warnPat m = true := by
            have h2 := hall.1.1
            rw [hSc] at h2
            simp only [List.all_cons, Bool.and_eq_true] at h2
            exact h2.1
          rw [hm] at hm'; cases hm'
      · cases hCc : cycleErrors (buildParentMap rels) with
        | nil => rfl
        | cons m C' =>
          have hm : containsSub warnPat m = false :=
            hC m (by rw [hCc]; exact List.mem_cons_self _ _)
          have hm' : containsSub warnPat m = true := by
            have h2 := hall.1.2
            rw [hCc] at h2
            simp only [List.all_cons, Bool.and_eq_true] at h2
            exact h2.1
          rw [hm] at hm'; cases hm'
  · rintro ⟨hS0, hC0⟩
    rw [hfst, hS0, hC0]
    have hWall : (warningErrors rels).all (fun e => containsSub warnPat e) = true :=
      List.all_eq_true.mpr (fun m hm => hW m hm)
    simp [hWall]

/-- C6 witness: a two-parent child yields only a warning and the flag
stays true. -/
theorem validity_flag_witness :
    (validate_hierarchy [⟨['a'], ['b']⟩, ⟨['a'], ['c']⟩]).1 = true := by
  have h := validity_flag_amended [⟨['a'], ['b']⟩, ⟨['a'], ['c']⟩] (by decide)
  exact (h.1).mpr (by decide)

/-- C6 counterexample: a self-referencing edge whose id contains
`WARNING:` produces a CRITICAL self-reference diagnostic, yet the flag
is true, because the flag is substring search over the messages. -/
theorem validity_flag_counterexample :
    (validate_hierarchy relsWarnTrick).1 = true
    ∧ (validate_hierarchy relsWarnTrick).2 = [selfRefMsg "WARNING:x".toList] := by
  decide

/-! ## C1: cycle diagnostics and the cleaned edge set -/

/-- C1 counterexample, refuting both halves of the claim at concrete
inputs.  Cleaning: on the A→B→C→A cycle the cycle diagnostic naming
A, B, C is reported, yet the cleaned edge set still has a path from A
back to A.  Diagnostic: the edge set A→B, B→A, B→C forms a cycle (its
cleaned edge set has a path from A back to A), yet no cycle diagnostic
is reported at all — the only diagnostic is the multi-parent warning —
because cycle-walking follows the last-seen parent mapping, in which
the later B→C edge overwrites B's parent. -/
theorem hierarchy_cycle_path_counterexample :
    hasPath (extract_hierarchy_relationships orgsABC) ['A'] ['A'] = true
    ∧ (validate_hierarchy (candidateRels orgsABC)).2
        = [cycleMsg [['A'], ['B'], ['C'], ['A']]]
    ∧ hasPath (extract_hierarchy_relationships orgsBA) ['A'] ['A'] = true
    ∧ (validate_hierarchy (candidateRels orgsBA)).2
        = [multiParentMsg [multiParentItem ['B'] 2]] := by
  decide

theorem validate_hierarchy_three_cycle (a b c : Str) (hab : a ≠ b) (hbc : b ≠ c)
    (hac : a ≠ c) :
    (validate_hierarchy [⟨a, b⟩, ⟨b, c⟩, ⟨c, a⟩]).2 = [cycleMsg [a, b, c, a]] := by
  have hab' : (a == b) = false := by simpa using hab
  have hba' : (b == a) = false := by simpa using Ne.symm hab
  have hbc' : (b == c) = false := by simpa using hbc
  have hcb' : (c == b) = false := by simpa using Ne.symm hbc
  have hac' : (a == c) = false := by simpa using hac
  have hca' : (c == a) = false := by simpa using Ne.symm hac
  have haa : (a == a) = true := by simp
  have hbb : (b == b) = true := by simp
  have hcc : (c == c) = true := by simp
  have h11 : decide (1 < 1) = false := by decide
  simp only [validate_hierarchy, hierarchyErrors, selfRefErrors, buildParentMap,
    List.foldl_cons, List.foldl_nil, dictInsert, dictFind, dictKeys, cycleErrors,
    cycleErrorsGo, walkParents, memS, childParentCount, countBump, multiParentItems,
    warningErrors, multiParentMsg, List.any_cons, List.any_nil, List.find?,
    List.map_cons, List.map_nil, List.filter_cons, List.filter_nil,
    List.append_nil, List.nil_append, List.cons_append,
    hab', hba', hbc', hcb', hac', hca', haa, hbb, hcc,
    Bool.false_or, Bool.or_false, Bool.or_true, Bool.true_or,
    Bool.false_eq_true, if_false, if_true, List.findIdx, List.findIdx.go,
    List.drop, List.isEmpty, Option.some.injEq, decide_True, decide_False,
    Option.map_some', Option.map_none', cond_true, cond_false,
    List.drop_succ_cons, List.drop_zero, Bool.true_eq_false, h11]

/-- C1 (amended): when the edge set is a three-cycle a→b→c→a over
distinct ids and nothing else, `validate_hierarchy` reports exactly one
cycle diagnostic, naming every node on the cycle; for a general edge
set forming a cycle no diagnostic is guaranteed, because cycle-walking
follows the last-seen parent mapping and a later multi-parent edge can
overwrite a cycle node's parent (on A→B, B→A, B→C only the multi-parent
warning is reported); and the cleaning in
`extract_hierarchy_relationships` removes only self-reference edges —
on every input it returns the candidate edge set unchanged — so the
cleaned edge set can retain a path from A back to A (on A→B→C→A, and
on A→B, B→A, B→C, it does). -/
theorem hierarchy_cycle_cleaning_amended :
    (∀ orgs : List OrgRecord, extract_hierarchy_relationships orgs = candidateRels orgs)
    ∧ (∀ a b c : Str, a ≠ b → b ≠ c → a ≠ c →
        (validate_hierarchy [⟨a, b⟩, ⟨b, c⟩, ⟨c, a⟩]).2 = [cycleMsg [a, b, c, a]])
    ∧ (validate_hierarchy (candidateRels orgsBA)).2
        = [multiParentMsg [multiParentItem ['B'] 2]]
    ∧ hasPath (candidateRels orgsBA) ['A'] ['A'] = true
    ∧ hasPath (candidateRels orgsABC) ['A'] ['A'] = true :=
  ⟨extract_eq_candidateRels,
    fun a b c hab hbc hac => validate_hierarchy_three_cycle a b c hab hbc hac,
    by decide, by decide, by decide⟩

/-! ## C7 and C4: batch streaming and checkpoint offsets -/

theorem stream_past_end_helper {α : Type} (docs : List α) (bs cur : Nat)
    (maxB : Option Nat) (h : docs.length ≤ cur) :
    stream_publication_batches docs bs cur maxB = [] := by
  have hlt : ¬(cur < docs.length) := by omega
  simp [stream_publication_batches, streamGo, hlt]

/-- C7: starting at or past the end of the source, the batch reader
yields the empty sequence (the embedding is a total function: no error
is possible). -/
theorem stream_offset_past_end (α : Type) (docs : List α) (bs k : Nat)
    (maxB : Option Nat) :
    stream_publication_batches docs bs (docs.length + k) maxB = [] :=
  stream_past_end_helper docs bs _ maxB (by omega)

theorem streamGo_eq_enumFrom {α : Type} (docs : List α) (bs : Nat) (hbs : bs ≠ 0) :
    ∀ (fuel cur bn : Nat), docs.length - cur < fuel →
      streamGo docs bs none fuel bn cur
        = List.enumFrom (bn + 1) (chunksOf bs (docs.drop cur)) := by
  intro fuel
  induction fuel with
  | zero => intro cur bn h; exact absurd h (Nat.not_lt_zero _)
  | succ f ih =>
    intro cur bn h
    by_cases hcur : cur < docs.length
    · have hne : docs.drop cur ≠ [] := by
        rw [Ne, List.drop_eq_nil_iff]; omega
      obtain ⟨x, xs, hdrop⟩ := List.exists_cons_of_ne_nil hne
      have hbatch : ((docs.drop cur).take bs).isEmpty = false := by
        rw [hdrop]
        cases bs with
        | zero => exact absurd rfl hbs
        | succ b => rfl
      simp only [streamGo, hcur, if_true, hbatch, Bool.false_eq_true, if_false]
      have hdrop2 : docs.drop (min (cur + bs) docs.length) = (x :: xs).drop bs := by
        rw [← hdrop, List.drop_drop]
        rcases le_total (cur + bs) docs.length with hle | hle
        · rw [Nat.min_eq_left hle]
        · rw [Nat.min_eq_right hle, List.drop_length, List.drop_eq_nil_of_le hle]
      have hfuel : docs.length - min (cur + bs) docs.length < f := by omega
      rw [ih (min (cur + bs) docs.length) (bn + 1) hfuel, hdrop, hdrop2]
      simp only [chunksOf, hbs, if_neg hbs, List.enumFrom]
    · have hnil : docs.drop cur = [] := List.drop_eq_nil_of_le (by omega)
      simp [streamGo, hcur, hnil, chunksOf]

theorem stream_eq_chunks {α : Type} (docs : List α) (bs so : Nat) (hbs : bs ≠ 0) :
    stream_publication_batches docs bs so none
      = List.enumFrom 1 (chunksOf bs (docs.drop so)) :=
  streamGo_eq_enumFrom docs bs hbs (docs.length + 1) so 0 (by omega)

theorem chunksOf_take_flatten {α : Type} (bs : Nat) (hbs : bs ≠ 0) :
    ∀ (n : Nat) (l : List α), ((chunksOf bs l).take n).flatten = l.take (n * bs) := by
  intro n
  induction n with
  | zero => intro l; simp
  | succ n ih =>
    intro l
    cases l with
    | nil => simp [chunksOf]
    | cons x xs =>
      show ((chunksOf bs (x :: xs)).take (n + 1)).flatten = (x :: xs).take ((n + 1) * bs)
      rw [chunksOf, if_neg hbs, List.take_succ_cons, List.flatten_cons, ih,
        ← List.take_add, show bs + n * bs = (n + 1) * bs by ring]

/-- C4 (amended): after the reader's batch `i + 1` (counting from 1)
the in-memory checkpoint offset is `so + (i+1)·bs`; the records the
first `i + 1` batches carried are exactly `docs[so : so + (i+1)·bs]`
(clamped at the end); hence the offset equals `so` plus the number of
records processed — the index of the first unprocessed record —
whenever batch `i + 1` was full, while after a partial final batch the
stored offset exceeds the source length and resuming from it yields no
batches (nothing is reprocessed and, against the same source, nothing
is skipped). -/
theorem checkpoint_offsets_amended (docs : List Nat) (bs so i : Nat) (hbs : bs ≠ 0)
    (hi : i < (stream_publication_batches docs bs so none).length) :
    (loaderOffsets docs bs so none)[i]? = some (so + (i + 1) * bs)
    ∧ (((stream_publication_batches docs bs so none).map Prod.snd).take (i + 1)).flatten
        = (docs.drop so).take ((i + 1) * bs)
    ∧ (so + (i + 1) * bs ≤ docs.length →
        so + (i + 1) * bs = so + ((docs.drop so).take ((i + 1) * bs)).length)
    ∧ (docs.length ≤ so + (i + 1) * bs →
        stream_publication_batches docs bs (so + (i + 1) * bs) none = []) := by
  have hstream := stream_eq_chunks docs bs so hbs
  have hlen : i < (chunksOf bs (docs.drop so)).length := by
    rw [hstream] at hi
    simpa using hi
  refine ⟨?_, ?_, ?_, ?_⟩
  · unfold loaderOffsets
    rw [hstream, List.getElem?_map, List.getElem?_enumFrom,
      List.getElem?_eq_getElem hlen]
    simp only [Option.map_some']
    congr 1
    ring
  · rw [hstream, List.enumFrom_map_snd, chunksOf_take_flatten bs hbs]
  · intro h
    rw [List.length_take, List.length_drop]
    omega
  · intro h
    exact stream_past_end_helper docs bs _ none h

/-- C4 witness: batch 1 of size 2 from offset 1 over five records ends
with checkpoint offset 3. -/
theorem checkpoint_offsets_witness :
    (loaderOffsets ([10, 11, 12, 13, 14] : List Nat) 2 1 none)[0]?
      = some (1 + (0 + 1) * 2) :=
  (checkpoint_offsets_amended [10, 11, 12, 13, 14] 2 1 0 (by decide) (by decide)).1

/-- C4 counterexample: three records with batch size 2 are fully
processed by two batches, so the first not-yet-processed record index
is 3, but the checkpoint offset recorded after the final (partial)
batch is 4. -/
theorem checkpoint_offsets_counterexample :
    loaderOffsets ([0, 1, 2] : List Nat) 2 0 none = [2, 4]
    ∧ ((stream_publication_batches ([0, 1, 2] : List Nat) 2 0 none).map Prod.snd).flatten
        = [0, 1, 2]
    ∧ (4 : Nat) ≠ 3 := by
  decide

/-! ## C2: per-batch deduplication of the nested-entity extraction -/

theorem pyTruthyStr_some_eq (o : Option Str) (s : Str) (h : pyTruthyStr o = some s) :
    o = some s := by
  cases o with
  | none => cases h
  | some t =>
    by_cases ht : t.isEmpty = true
    · simp [pyTruthyStr, ht] at h
    · simp only [pyTruthyStr, ht, Bool.false_eq_true, if_false] at h
      rw [Option.some.inj h]

theorem keyMem_iff {β : Type} (k : Str) (m : List (Str × β)) :
    keyMem k m = true ↔ k ∈ m.map Prod.fst := by
  simp only [keyMem, List.any_eq_true, List.mem_map, beq_iff_eq]

theorem addOrgs_inv (entries : List (Option OrgEntryD)) :
    ∀ od : OrgDict, orgDictInv od → orgDictInv (addOrgs entries od) := by
  induction entries with
  | nil => intro od h; exact h
  | cons e rest ih =>
    intro od h
    cases e with
    | none => exact ih od h
    | some oe =>
      cases hid : pyTruthyStr oe.organizationData.oid with
      | none =>
        simp only [addOrgs, hid]
        exact ih od h
      | some oid =>
        by_cases hmem : keyMem oid od = true
        · simp only [addOrgs, hid, hmem, if_true]
          exact ih od h
        · simp only [addOrgs, hid, hmem, Bool.false_eq_true, if_false]
          refine ih _ ⟨?_, ?_⟩
          · rw [List.map_append]
            have hnotin : oid ∉ od.map Prod.fst := fun hc => hmem ((keyMem_iff oid od).mpr hc)
            simp [List.nodup_append, h.1, hnotin]
          · intro kv hkv
            rcases List.mem_append.mp hkv with hkv | hkv
            · exact h.2 kv hkv
            · rcases List.mem_singleton.mp hkv with rfl
              exact pyTruthyStr_some_eq _ _ hid

theorem addPersons_inv (entries : List (Option PersonEntryD)) :
    ∀ (pd : PersonDict) (od : OrgDict), personDictInv pd → orgDictInv od →
      personDictInv (addPersons entries (pd, od)).1
      ∧ orgDictInv (addPersons entries (pd, od)).2 := by
  induction entries with
  | nil => intro pd od h1 h2; exact ⟨h1, h2⟩
  | cons e rest ih =>
    intro pd od h1 h2
    cases e with
    | none => exact ih pd od h1 h2
    | some pe =>
      have hod := addOrgs_inv pe.organizations od h2
      cases hid : pyTruthyStr pe.personData.pid with
      | none =>
        simp only [addPersons, hid]
        exact ih pd _ h1 hod
      | some pid =>
        by_cases hmem : keyMem pid pd = true
        · simp only [addPersons, hid, hmem, if_true]
          exact ih pd _ h1 hod
        · simp only [addPersons, hid, hmem, Bool.false_eq_true, if_false]
          refine ih _ _ ⟨?_, ?_⟩ hod
          · rw [List.map_append]
            have hnotin : pid ∉ pd.map Prod.fst := fun hc => hmem ((keyMem_iff pid pd).mpr hc)
            simp [List.nodup_append, h1.1, hnotin]
          · intro kv hkv
            rcases List.mem_append.mp hkv with hkv | hkv
            · exact h1.2 kv hkv
            · rcases List.mem_singleton.mp hkv with rfl
              exact pyTruthyStr_some_eq _ _ hid

theorem extractGo_spec (pubs : List PubDocD) :
    ∀ (pd : PersonDict) (od : OrgDict) (ids : List Str),
      personDictInv pd → orgDictInv od →
      personDictInv (extractGo pubs pd od ids).1
      ∧ orgDictInv (extractGo pubs pd od ids).2.1
      ∧ (extractGo pubs pd od ids).2.2
          = ids ++ pubs.filterMap (fun d => pyTruthyStr d.docId) := by
  induction pubs with
  | nil => intro pd od ids h1 h2; exact ⟨h1, h2, by simp [extractGo]⟩
  | cons doc rest ih =>
    intro pd od ids h1 h2
    have hs := addPersons_inv doc.persons pd od h1 h2
    cases hdoc : pyTruthyStr doc.docId with
    | none =>
      have := ih (addPersons doc.persons (pd, od)).1 (addPersons doc.persons (pd, od)).2
        ids hs.1 hs.2
      simpa [extractGo, hdoc, List.filterMap_cons] using this
    | some i =>
      have := ih (addPersons doc.persons (pd, od)).1 (addPersons doc.persons (pd, od)).2
        (ids ++ [i]) hs.1 hs.2
      simpa [extractGo, hdoc, List.filterMap_cons, List.append_assoc] using this

/-- C2 (amended): the per-batch flattening deduplicates persons and
organizations by entity ID (no two returned records share an `Id`),
while the publication-ID list gets one entry per input document bearing
a truthy `_id`, in order and without deduplication. -/
theorem extract_nested_dedup_amended (pubs : List PubDocD) :
    ((extract_nested_entities_from_publications pubs).persons.map (fun p => p.pid)).Nodup
    ∧ ((extract_nested_entities_from_publications pubs).organizations.map
        (fun o => o.oid)).Nodup
    ∧ (extract_nested_entities_from_publications pubs).publication_ids
        = pubs.filterMap (fun d => pyTruthyStr d.docId) := by
  obtain ⟨⟨hnodP, hvalP⟩, ⟨hnodO, hvalO⟩, hids⟩ :=
    extractGo_spec pubs [] [] [] ⟨List.nodup_nil, by intro kv hkv; cases hkv⟩
      ⟨List.nodup_nil, by intro kv hkv; cases hkv⟩
  refine ⟨?_, ?_, by simpa [extract_nested_entities_from_publications] using hids⟩
  · show (((extractGo pubs [] [] []).1.map (fun kv => kv.2)).map (fun p => p.pid)).Nodup
    rw [List.map_map]
    have heq : (extractGo pubs [] [] []).1.map (fun kv => kv.2.pid)
        = (extractGo pubs [] [] []).1.map (fun kv => some kv.1) :=
      List.map_congr_left (fun kv hkv => hvalP kv hkv)
    show ((extractGo pubs [] [] []).1.map (fun kv => kv.2.pid)).Nodup
    rw [heq, show (extractGo pubs [] [] []).1.map (fun kv => some kv.1)
      = ((extractGo pubs [] [] []).1.map Prod.fst).map some by rw [List.map_map]; rfl]
    exact hnodP.map (fun a b => Option.some.inj)
  · show (((extractGo pubs [] [] []).2.1.map (fun kv => kv.2)).map (fun o => o.oid)).Nodup
    rw [List.map_map]
    have heq : (extractGo pubs [] [] []).2.1.map (fun kv => kv.2.oid)
        = (extractGo pubs [] [] []).2.1.map (fun kv => some kv.1) :=
      List.map_congr_left (fun kv hkv => hvalO kv hkv)
    show ((extractGo pubs [] [] []).2.1.map (fun kv => kv.2.oid)).Nodup
    rw [heq, show (extractGo pubs [] [] []).2.1.map (fun kv => some kv.1)
      = ((extractGo pubs [] [] []).2.1.map Prod.fst).map some by rw [List.map_map]; rfl]
    exact hnodO.map (fun a b => Option.some.inj)

/-- C2 counterexample: two documents sharing `_id` yield a
publication-ID list with that ID twice — the list is not deduplicated. -/
theorem extract_nested_pubids_counterexample :
    (extract_nested_entities_from_publications
        [⟨some ['P'], []⟩, ⟨some ['P'], []⟩]).publication_ids = [['P'], ['P']]
    ∧ ¬ ([['P'], ['P']] : List Str).Nodup := by
  decide

/-! ## C3: ORCID normalization -/

/-- C3 counterexample: a length-19 input with three dashes that is not
in dashed groups of 4 is accepted unchanged, not rejected. -/
theorem orcid_normalization_counterexample :
    validate_orcid_format "---1234567890123456".toList
      = .ok "---1234567890123456".toList := by
  decide

/-- C3 (amended): after stripping the known orcid.org URL forms and
whitespace, an input of length 19 with exactly three dashes is accepted
unchanged (dash positions and characters are not checked), an input of
length 16 with no dash has dashes re-inserted, and every other shape is
rejected; the spec's three examples behave as stated. -/
theorem orcid_normalization_amended :
    validate_orcid_format "0000000234567890".toList = .ok "0000-0002-3456-7890".toList
    ∧ validate_orcid_format "https://orcid.org/0000-0002-3456-7890".toList
        = .ok "0000-0002-3456-7890".toList
    ∧ validate_orcid_format "bad-id".toList
        = .error ("Invalid ORCID format: bad-id".toList)
    ∧ (∀ v : Str, (cleanOrcid v).length = 19 → countChar '-' (cleanOrcid v) = 3 →
        validate_orcid_format v = .ok (cleanOrcid v))
    ∧ (∀ v : Str, (cleanOrcid v).length = 16 →
        (cleanOrcid v).any (fun c => c == '-') = false →
        validate_orcid_format v = .ok (insertOrcidDashes (cleanOrcid v)))
    ∧ (∀ v : Str,
        ¬((cleanOrcid v).length = 19 ∧ countChar '-' (cleanOrcid v) = 3) →
        ¬((cleanOrcid v).length = 16 ∧ (cleanOrcid v).any (fun c => c == '-') = false) →
        validate_orcid_format v
          = .error ("Invalid ORCID format: ".toList ++ cleanOrcid v)) := by
  refine ⟨by decide, by decide, by decide, ?_, ?_, ?_⟩
  · intro v h1 h2
    have hcond : ((cleanOrcid v).length == 19 && (countChar '-' (cleanOrcid v) == 3)) = true := by
      rw [h1, h2]; rfl
    simp [validate_orcid_format, hcond]
  · intro v h1 h2
    have hc1 : ((cleanOrcid v).length == 19) = false := by rw [h1]; rfl
    have hc2 : ((cleanOrcid v).length == 16
        && !((cleanOrcid v).any (fun c => c == '-'))) = true := by
      rw [h1, h2]; rfl
    simp [validate_orcid_format, hc1, hc2]
  · intro v h1 h2
    have hb1 : ((cleanOrcid v).length == 19 && (countChar '-' (cleanOrcid v) == 3)) = false := by
      by_cases hx : (cleanOrcid v).length = 19
      · have hy : countChar '-' (cleanOrcid v) ≠ 3 := fun hy => h1 ⟨hx, hy⟩
        have hyb : (countChar '-' (cleanOrcid v) == 3) = false := by simpa using hy
        simp [hyb]
      · have hxb : ((cleanOrcid v).length == 19) = false := by simpa using hx
        simp [hxb]
    have hb2 : ((cleanOrcid v).length == 16
        && !((cleanOrcid v).any (fun c => c == '-'))) = false := by
      by_cases hx : (cleanOrcid v).length = 16
      · have hy : (cleanOrcid v).any (fun c => c == '-') ≠ false := fun hy => h2 ⟨hx, hy⟩
        have hyb : (cleanOrcid v).any (fun c => c == '-') = true := by
          cases hc : (cleanOrcid v).any (fun c => c == '-')
          · exact absurd hc hy
          · rfl
        simp [hyb]
      · have hxb : ((cleanOrcid v).length == 16) = false := by simpa using hx
        simp [hxb]
    simp [validate_orcid_format, hb1, hb2]

/-! ## C8: the publication-kind tag -/

theorem mkPublicationCreate_type (w : World) (idv title : Str) (year : Int) (ptype : Str)
    (abs lang doi sco pmid isbn jt jp du text : Option Str) (pub : PublicationCreate)
    (h : mkPublicationCreate w idv title year ptype abs lang doi sco pmid isbn jt jp du text
      = .ok pub) :
    pub.publicationType = pyStrip ptype := by
  simp only [mkPublicationCreate, bind, Except.bind, pure, Except.pure] at h
  iterate 8 (all_goals (try split at h))
  all_goals (try cases h)
  all_goals rfl

theorem pyStrip_inferPublicationType (pt : PubTypeField) :
    pyStrip (inferPublicationType pt) = inferPublicationType pt := by
  cases pt with
  | missing => decide
  | notDict => decide
  | objD ne =>
    simp only [inferPublicationType]
    split
    · decide
    · split
      · decide
      · split
        · decide
        · split
          · decide
          · decide

theorem inferPublicationType_eq_spec (pt : PubTypeField) :
    inferPublicationType pt = specPublicationKind (pubTypeLabel pt) := by
  cases pt with
  | missing => rfl
  | notDict => rfl
  | objD ne =>
    by_cases hne : ne.isEmpty = true
    · have h0 : ne = [] := by simpa [List.isEmpty_iff] using hne
      subst h0; rfl
    · have h2 : (toLowerL ne).isEmpty = false := by
        cases ne with
        | nil => simp at hne
        | cons c cs => rfl
      simp [inferPublicationType, specPublicationKind, pubTypeLabel, hne, h2]

/-- C8: the kind tag of every publication `transform_publication`
accepts is the ordered substring match of the keyword groups over the
(lowercased) free-text type label, `article` for every other or absent
label — the specification-side `specPublicationKind` applied to the
label. -/
theorem publication_kind_inference (w : World) (d : PublicationSource) (esId : Option Str)
    (pub : PublicationCreate) (h : transform_publication w d esId = .ok pub) :
    pub.publicationType = specPublicationKind (pubTypeLabel d.pubType) := by
  rw [← inferPublicationType_eq_spec]
  simp only [transform_publication, bind, Except.bind, pure, Except.pure] at h
  iterate 8 (all_goals (try split at h))
  all_goals (try cases h)
  all_goals
    rw [← pyStrip_inferPublicationType d.pubType]
    exact mkPublicationCreate_type _ _ _ _ _ _ _ _ _ _ _ _ _ _ _ _ h

/-- C8 witness: a label containing `proceeding` yields the kind
`conference`. -/
theorem publication_kind_inference_witness :
    pubConferenceOut.publicationType
      = specPublicationKind (pubTypeLabel pubSrcConference.pubType) :=
  publication_kind_inference ⟨2026, 0⟩ pubSrcConference none pubConferenceOut (by decide)

/-! ## C9: determinism of the record transformers -/

/-- C9 counterexample: the same raw publication transformed under two
clock readings gives different results — the year-plausibility check
reads the ambient clock, so the transformation is not a pure function
of the record alone. -/
theorem transformers_clock_counterexample :
    transform_publication ⟨2026, 0⟩ pubSrcY2030 none
      ≠ transform_publication ⟨2028, 1⟩ pubSrcY2030 none := by
  decide

/-- C9 (amended): `transform_organization` is independent of the
ambient clock outright; `transform_person` and `transform_publication`
are deterministic once the clock's calendar year is fixed (their only
clock use is the birth-year and publication-year plausibility bounds).
All three return all outputs as values. -/
theorem transformers_determinism_amended :
    (∀ (w w' : World) (d : OrganizationSource) (e : Option Str),
        transform_organization w d e = transform_organization w' d e)
    ∧ (∀ (w w' : World) (d : PersonSource) (e : Option Str), w.year = w'.year →
        transform_person w d e = transform_person w' d e)
    ∧ (∀ (w w' : World) (d : PublicationSource) (e : Option Str), w.year = w'.year →
        transform_publication w d e = transform_publication w' d e) := by
  refine ⟨fun w w' d e => rfl, ?_, ?_⟩
  · intro w w' d e h
    cases w; cases w'
    dsimp only at h
    subst h
    rfl
  · intro w w' d e h
    cases w; cases w'
    dsimp only at h
    subst h
    rfl

/-! ## C10: Entity Tracker filter/mark -/

theorem memS_append (i : Str) (l l' : List Str) :
    memS i (l ++ l') = (memS i l || memS i l') := by
  simp [memS, List.any_append]

theorem memS_mark (t : EntityTracker) (k : EntityKind) (i j : Str)
    (h : memS i (trackerSet t k) = true) :
    memS i (trackerSet (mark_entity_loaded t k j) k) = true := by
  cases k <;> simp_all [mark_entity_loaded, trackerSet, memS_append]

theorem memS_mark_self (t : EntityTracker) (k : EntityKind) (i : Str) :
    memS i (trackerSet (mark_entity_loaded t k i) k) = true := by
  cases k <;> simp [mark_entity_loaded, trackerSet, memS_append, memS]

theorem markAll_mono (k : EntityKind) (i : Str) (ids : List Str) :
    ∀ t : EntityTracker, memS i (trackerSet t k) = true →
      memS i (trackerSet (markAll t k ids) k) = true := by
  induction ids with
  | nil => intro t h; exact h
  | cons j ids ih =>
    intro t h
    show memS i (trackerSet (markAll (mark_entity_loaded t k j) k ids) k) = true
    exact ih _ (memS_mark t k i j h)

theorem markAll_mem (k : EntityKind) (i : Str) (ids : List Str) :
    ∀ t : EntityTracker, i ∈ ids →
      memS i (trackerSet (markAll t k ids) k) = true := by
  induction ids with
  | nil => intro t h; cases h
  | cons j ids ih =>
    intro t h
    show memS i (trackerSet (markAll (mark_entity_loaded t k j) k ids) k) = true
    rcases List.mem_cons.mp h with rfl | h
    · exact markAll_mono k i ids _ (memS_mark_self t k i)
    · exact ih _ h

theorem get_new_entities_filter (t : EntityTracker) (k : EntityKind)
    (ents : List EntityRecord) :
    get_new_entities t k ents = ents.filter (fun e =>
      match pyTruthyStr e.idField with
      | some i => !(is_entity_existing t k i)
      | none => false) := by
  induction ents with
  | nil => rfl
  | cons e es ih =>
    cases hid : pyTruthyStr e.idField with
    | none => simp [get_new_entities, hid, List.filter_cons, ih]
    | some i =>
      by_cases hex : is_entity_existing t k i = true
      · simp [get_new_entities, hid, hex, List.filter_cons, ih]
      · simp [get_new_entities, hid, hex, List.filter_cons, ih]

theorem returned_ids_mem (t : EntityTracker) (k : EntityKind) :
    ∀ (ents : List EntityRecord) (e : EntityRecord) (i : Str),
      e ∈ ents → pyTruthyStr e.idField = some i → is_entity_existing t k i = false →
      i ∈ (get_new_entities t k ents).filterMap (fun e => pyTruthyStr e.idField) := by
  intro ents
  induction ents with
  | nil => intro e i he; cases he
  | cons a es ih =>
    intro e i he hid hex
    rcases List.mem_cons.mp he with rfl | he
    · rw [show get_new_entities t k (e :: es)
          = e :: get_new_entities t k es by simp [get_new_entities, hid, hex]]
      simp [List.filterMap_cons, hid]
    · cases hida : pyTruthyStr a.idField with
      | none =>
        rw [show get_new_entities t k (a :: es) = get_new_entities t k es by
          simp [get_new_entities, hida]]
        exact ih e i he hid hex
      | some ja =>
        by_cases hexa : is_entity_existing t k ja = true
        · rw [show get_new_entities t k (a :: es) = get_new_entities t k es by
            simp [get_new_entities, hida, hexa]]
          exact ih e i he hid hex
        · rw [show get_new_entities t k (a :: es) = a :: get_new_entities t k es by
            simp [get_new_entities, hida, hexa]]
          simp only [List.filterMap_cons, hida]
          exact List.mem_cons_of_mem _ (ih e i he hid hex)

/-- C10: `get_new_entities` keeps exactly the candidates whose `id` is
present, non-empty and neither marked nor persisted (candidates without
a truthy `id` are silently dropped); and once every returned ID has
been passed to `mark_entity_loaded`, a second call on the same
candidate list returns the empty list. -/
theorem entity_tracker_filter_mark :
    (∀ (t : EntityTracker) (k : EntityKind) (ents : List EntityRecord),
        get_new_entities t k ents = ents.filter (fun e =>
          match pyTruthyStr e.idField with
          | some i => !(is_entity_existing t k i)
          | none => false))
    ∧ (∀ (t : EntityTracker) (k : EntityKind) (ents : List EntityRecord),
        get_new_entities
          (markAll t k
            ((get_new_entities t k ents).filterMap (fun e => pyTruthyStr e.idField)))
          k ents = []) := by
  refine ⟨get_new_entities_filter, ?_⟩
  intro t k ents
  rw [get_new_entities_filter]
  rw [List.filter_eq_nil_iff]
  intro e he
  cases hid : pyTruthyStr e.idField with
  | none => simp
  | some i =>
    have htrue : is_entity_existing
        (markAll t k
          ((get_new_entities t k ents).filterMap (fun e => pyTruthyStr e.idField)))
        k i = true := by
      by_cases hex : is_entity_existing t k i = true
      · exact markAll_mono k i _ t hex
      · have hmem := returned_ids_mem t k ents e i he hid (by
          cases hb : is_entity_existing t k i
          · rfl
          · exact absurd hb hex)
        exact markAll_mem k i _ t hmem
    simp [htrue]

end GraphDB
